import Mathlib

/-!
# Verification of the password generation and hashing pipeline

Shallow embedding of `src/main.rs` from LunaTheFox20/rust-password-hashing.

The program generates a batch of 16 random policy-compliant passwords in
parallel, scores each, then hashes each with Argon2id under a fresh
per-password salt, zeroizing the plaintext after each hash, and prints the
encoded hashes followed by a completion line.

Modelling conventions:
* `String` stands for Rust `String`/`&str`; the plaintext buffer of a
  password is its character data, and a "zero byte" is the character with
  code point 0.
* External crates (`passwords`, `argon2`/`password_hash`, `rand_core`) are
  not repository code.  Their entry points are modelled either as explicit
  function parameters (the Argon2 digest primitive, the OS random source)
  or as executable definitions modelled from the spec (the password
  generator, analyzer and scorer, and the Argon2 parameter validation);
  each of the latter carries a doc comment starting `Modelled from the
  spec:`.
* The `f64` strength score is never inspected arithmetically by the
  program (it is computed and discarded), so scores are modelled as `Int`.
* `rayon` parallel stages are modelled as in-order sequential folds; the
  fail-fast `collect::<Result<Vec<_>, _>>()` becomes a left-to-right
  collection that keeps the first (earliest-indexed) error.
* The `mod errors` module (`errors.rs`) is not present under `src/`; the
  variants of `MyError` are reconstructed from their construction sites in
  `main.rs` (`MyError::PasswordGenerationError`,
  `MyError::HashingError { source, salt }`), with the `ArgonError` newtype
  around the primitive's error modelled as its message string.
-/

/-- Errors of the run, reconstructed from the construction sites in
`main.rs`: `MyError::PasswordGenerationError` and
`MyError::HashingError { source: ArgonError(source), salt: salt.clone() }`.
The `ArgonError` wrapper around the primitive's error is modelled as the
underlying cause string; the salt is the `SaltString` (its base64 text). -/
inductive MyError where
  | PasswordGenerationError : MyError
  | HashingError (source : String) (salt : String) : MyError
deriving DecidableEq, Repr

/-- Results of fallible operations are compared in concrete runs. -/
instance {ε α : Type} [DecidableEq ε] [DecidableEq α] :
    DecidableEq (Except ε α) := fun a b =>
  match a, b with
  | .error e1, .error e2 =>
    if h : e1 = e2 then .isTrue (h ▸ rfl)
    else .isFalse (fun hc => h (by injection hc))
  | .error _, .ok _ => .isFalse (fun hc => Except.noConfusion hc)
  | .ok _, .error _ => .isFalse (fun hc => Except.noConfusion hc)
  | .ok a1, .ok a2 =>
    if h : a1 = a2 then .isTrue (h ▸ rfl)
    else .isFalse (fun hc => h (by injection hc))

/-- The `PasswordGenerator` configuration struct of the `passwords` crate,
with exactly the fields set in `generate_passwords_using_rayon`. -/
structure PasswordGenerator where
  length : Nat
  numbers : Bool
  lowercase_letters : Bool
  uppercase_letters : Bool
  symbols : Bool
  spaces : Bool
  exclude_similar_characters : Bool
  strict : Bool
deriving DecidableEq, Repr

/-- `type PasswordWithScore = (String, f64)`; the score is abstracted to
`Int` (the program never inspects it). -/
abbrev PasswordWithScore := String × Int

/-- Digit character class. -/
def numbersFull : List Char := ['0', '1', '2', '3', '4', '5', '6', '7', '8', '9']

/-- Digit class with visually ambiguous characters (`0`, `1`) removed. -/
def numbersNoSimilar : List Char := ['2', '3', '4', '5', '6', '7', '8', '9']

/-- Lowercase character class. -/
def lowerFull : List Char :=
  ['a', 'b', 'c', 'd', 'e', 'f', 'g', 'h', 'i', 'j', 'k', 'l', 'm',
   'n', 'o', 'p', 'q', 'r', 's', 't', 'u', 'v', 'w', 'x', 'y', 'z']

/-- Lowercase class with the ambiguous `l` removed. -/
def lowerNoSimilar : List Char :=
  ['a', 'b', 'c', 'd', 'e', 'f', 'g', 'h', 'i', 'j', 'k', 'm',
   'n', 'o', 'p', 'q', 'r', 's', 't', 'u', 'v', 'w', 'x', 'y', 'z']

/-- Uppercase character class. -/
def upperFull : List Char :=
  ['A', 'B', 'C', 'D', 'E', 'F', 'G', 'H', 'I', 'J', 'K', 'L', 'M',
   'N', 'O', 'P', 'Q', 'R', 'S', 'T', 'U', 'V', 'W', 'X', 'Y', 'Z']

/-- Uppercase class with the ambiguous `I`, `O` removed. -/
def upperNoSimilar : List Char :=
  ['A', 'B', 'C', 'D', 'E', 'F', 'G', 'H', 'J', 'K', 'L', 'M',
   'N', 'P', 'Q', 'R', 'S', 'T', 'U', 'V', 'W', 'X', 'Y', 'Z']

/-- Symbol character class (no ambiguous members). -/
def symbolsFull : List Char := ['!', '@', '#', '%', '&', '*']

/-- The union of the character classes enabled by the policy, with the
ambiguous characters removed when `exclude_similar_characters` is set. -/
def enabledCharset (pg : PasswordGenerator) : List Char :=
  (if pg.numbers then
      (if pg.exclude_similar_characters then numbersNoSimilar else numbersFull)
    else []) ++
  (if pg.lowercase_letters then
      (if pg.exclude_similar_characters then lowerNoSimilar else lowerFull)
    else []) ++
  (if pg.uppercase_letters then
      (if pg.exclude_similar_characters then upperNoSimilar else upperFull)
    else []) ++
  (if pg.symbols then symbolsFull else []) ++
  (if pg.spaces then [' '] else [])

/-- One character per position, drawn from the charset by the entropy
stream (index `i` consumes the `i`-th random value). -/
def pickChars (cs : List Char) (entropy : List Nat) (n : Nat) : List Char :=
  (List.range n).map (fun i => cs.getD (entropy.getD i 0 % cs.length) 'a')

/-- `strict` satisfaction: the candidate contains at least one character of
every enabled class (class membership tested against the full class). -/
def satisfiesStrict (pg : PasswordGenerator) (chars : List Char) : Bool :=
  (!pg.numbers || chars.any (numbersFull.contains ·)) &&
  (!pg.lowercase_letters || chars.any (lowerFull.contains ·)) &&
  (!pg.uppercase_letters || chars.any (upperFull.contains ·)) &&
  (!pg.symbols || chars.any (symbolsFull.contains ·)) &&
  (!pg.spaces || chars.any (· == ' '))

/-- Modelled from the spec: `generate_one` of the external `passwords`
crate is not repository code.  Per §4.1 it "produces a password of exactly
`policy.length` characters, drawn only from the union of enabled character
classes, excluding visually ambiguous characters when
`exclude_similar_characters` is set"; under `strict`, "if the underlying
random draw cannot satisfy this within an internal retry bound, the call
fails with `GenerationError`" (retry bound modelled as one draw).  The
process-wide random source is the explicit `entropy` stream. -/
def generate_one (pg : PasswordGenerator) (entropy : List Nat) :
    Except MyError String :=
  let cs := enabledCharset pg
  if cs.isEmpty then .error .PasswordGenerationError
  else
    let chars := pickChars cs entropy pg.length
    if pg.strict && !satisfiesStrict pg chars then
      .error .PasswordGenerationError
    else .ok (String.mk chars)

/-- Composition profile of a password, as produced by the analyzer. -/
structure AnalyzedPassword where
  length : Nat
  numbersCount : Nat
  lowercaseCount : Nat
  uppercaseCount : Nat
  symbolsCount : Nat
  spacesCount : Nat
deriving DecidableEq, Repr

/-- Modelled from the spec: `analyzer::analyze` of the external `passwords`
crate is not repository code.  Per §4.2 the downstream score is a function
of "the password's character composition (charset breadth, length,
repetition)"; the analyzer extracts that composition from the string. -/
def analyze (s : String) : AnalyzedPassword :=
  { length := s.data.length
    numbersCount := s.data.countP (numbersFull.contains ·)
    lowercaseCount := s.data.countP (lowerFull.contains ·)
    uppercaseCount := s.data.countP (upperFull.contains ·)
    symbolsCount := s.data.countP (symbolsFull.contains ·)
    spacesCount := s.data.countP (· == ' ') }

/-- Modelled from the spec: `scorer::score` of the external `passwords`
crate is not repository code.  Per §4.2 it is a "pure, deterministic
function of the password's character composition"; modelled as a weighted
count of the composition profile (`f64` abstracted to `Int`). -/
def scorePassword (a : AnalyzedPassword) : Int :=
  4 * (a.length : Int) +
    (min a.numbersCount 1 + min a.lowercaseCount 1 +
      min a.uppercaseCount 1 + min a.symbolsCount 1) * 10

/-- `generate_password`: draw one password, analyze and score it
(`src/main.rs` lines 68-75). -/
def generate_password (pg : PasswordGenerator) (entropy : List Nat) :
    Except MyError PasswordWithScore :=
  match generate_one pg entropy with
  | .error _ => .error .PasswordGenerationError
  | .ok password => .ok (password, scorePassword (analyze password))

/-- Observable scheduling events of a run: one event per generation unit,
the engine construction, and one event per hashing unit. -/
inductive Event where
  | genUnit (i : Nat) : Event
  | engineConstruct : Event
  | hashUnit (i : Nat) : Event
deriving DecidableEq, Repr

/-- Fail-fast collection of independent units, mirroring rayon's
`collect::<Result<Vec<_>, _>>()` sequentialized in index order: the units
are run left to right, the first error aborts the stage and becomes its
result.  Also records the trace of units that ran. -/
def collectUnits {ι α : Type} (mk : ι → Event) (f : ι → Except MyError α) :
    List ι → Except MyError (List α) × List Event
  | [] => (.ok [], [])
  | i :: rest =>
    match f i with
    | .error e => (.error e, [mk i])
    | .ok a =>
      let (r, t) := collectUnits mk f rest
      (r.map (a :: ·), mk i :: t)

/-- `generate_passwords_using_rayon` (`src/main.rs` lines 77-96): the fixed
policy with the given length, mapped over `0..number_of_passwords` and
collected fail-fast.  The OS random source is the explicit per-unit
`entropy` streams. -/
def generate_passwords_using_rayon (entropy : Nat → List Nat)
    (number_of_passwords length : Nat) :
    Except MyError (List PasswordWithScore) × List Event :=
  let pg : PasswordGenerator :=
    { length := length
      numbers := true
      lowercase_letters := true
      uppercase_letters := true
      symbols := true
      spaces := false
      exclude_similar_characters := true
      strict := true }
  collectUnits Event.genUnit (fun i => generate_password pg (entropy i))
    (List.range number_of_passwords)

/-- Argon2 cost parameters (`argon2::Params`). -/
structure Params where
  mCost : Nat
  tCost : Nat
  pCost : Nat
  outputLen : Nat
deriving DecidableEq, Repr

/-- Modelled from the spec: `Params::new` of the external `argon2` crate is
not repository code.  Per §4.3 it "validates parameters eagerly; fails ...
if any value is outside the algorithm's accepted range (e.g., memory cost
below the minimum the primitive requires)".  Minima follow the Argon2
primitive: memory cost at least 8 KiB, time cost and parallelism at least
1, output length at least 4 bytes. -/
def paramsNew (m t p outputLen : Nat) : Except String Params :=
  if m < 8 then .error "memory cost too small"
  else if t < 1 then .error "time cost too small"
  else if p < 1 then .error "parallelism too small"
  else if outputLen < 4 then .error "output length too small"
  else .ok ⟨m, t, p, outputLen⟩

/-- An Argon2 engine: algorithm id, version, validated parameters. -/
structure Argon2 where
  algorithm : String
  version : Nat
  params : Params
deriving DecidableEq, Repr

/-- `create_argon2` (`src/main.rs` lines 48-52), generalized over the four
compiled-in cost constants.  `Params::new(..).expect(..)` panics on a
validation error; the panic is surfaced as the `.error` branch, which the
run turns into a panic outcome. -/
def create_argon2With (mc tc pc ol : Nat) : Except String Argon2 :=
  (paramsNew mc tc pc ol).map
    (fun ps => { algorithm := "argon2id", version := 19, params := ps })

/-- `MEMORY_COST`, `TIME_COST`, `PARALLELISM`, `OUTPUT_LEN` constants. -/
def MEMORY_COST : Nat := 50

/-- `TIME_COST` constant. -/
def TIME_COST : Nat := 2

/-- `PARALLELISM` constant. -/
def PARALLELISM : Nat := 2

/-- `OUTPUT_LEN` constant. -/
def OUTPUT_LEN : Nat := 32

/-- `create_argon2` with the compiled-in constants. -/
def create_argon2 : Except String Argon2 :=
  create_argon2With MEMORY_COST TIME_COST PARALLELISM OUTPUT_LEN

/-- The PHC string encoding produced by `PasswordHash::to_string` of the
`password_hash` crate: `$<alg>$v=<ver>$m=..,t=..,p=..$<salt>$<digest>`,
with the salt and digest in their base64 text form. -/
def phcString (a : Argon2) (salt digest : String) : String :=
  "$" ++ a.algorithm ++ "$v=" ++ toString a.version ++
    "$m=" ++ toString a.params.mCost ++ ",t=" ++ toString a.params.tCost ++
    ",p=" ++ toString a.params.pCost ++ "$" ++ salt ++ "$" ++ digest

/-- `hash_password` (`src/main.rs` lines 54-66).  The external primitive
`argon2.hash_password` is abstracted by two parameters: `reject` decides
whether the primitive rejects the input (returning the cause), and
`digest` is the digest it computes (in base64 text form) otherwise.  On
rejection the error is `MyError::HashingError { source, salt }`; on
success the result is the self-describing PHC encoding. -/
def hash_password (a : Argon2) (reject : String → String → Option String)
    (digest : String → String → String) (password salt : String) :
    Except MyError String :=
  match reject password salt with
  | some cause => .error (.HashingError cause salt)
  | none => .ok (phcString a salt (digest password salt))

/-- `String::zeroize` of the `zeroize` crate: every byte of the plaintext
buffer is overwritten with zero. -/
def zeroizeString (s : String) : String :=
  String.mk (s.data.map (fun _ => Char.ofNat 0))

/-- Does the buffer contain only zero bytes? -/
def allZeroBytes (s : String) : Bool :=
  s.data.all (fun c => c.toNat == 0)

/-- The per-password closure of the hashing stage (`src/main.rs` lines
25-30): draw a salt, hash, zeroize the plaintext, return the result.  The
first component is the password buffer as the closure leaves it. -/
def hashClosure (a : Argon2) (reject : String → String → Option String)
    (digest : String → String → String) (salt password : String) :
    String × Except MyError String :=
  let result := hash_password a reject digest password salt
  let wiped := zeroizeString password
  (wiped, result)

/-- The hashing stage of `main`: one unit per generated password (the
score is discarded by the closure's pattern `(mut password, _)`), salts
drawn per unit from the OS source `saltFn`, collected fail-fast. -/
def hashStage (a : Argon2) (saltFn : Nat → String)
    (reject : String → String → Option String)
    (digest : String → String → String)
    (passwords : List PasswordWithScore) :
    Except MyError (List String) × List Event :=
  collectUnits (fun ip => Event.hashUnit ip.1)
    (fun ip => (hashClosure a reject digest (saltFn ip.1) ip.2.1).2)
    passwords.enum

/-- The completion line printed on full success (colorization is out of
scope per the spec). -/
def logLine : String := "[LOG] All passwords have been hashed successfully"

/-- Outcome of the process: `Ok(())`, `Err(e)` from `main`, or a panic. -/
inductive RunResult where
  | ok : RunResult
  | err (e : MyError) : RunResult
  | panicked (msg : String) : RunResult
deriving DecidableEq, Repr

/-- Observable behaviour of a run: the stdout lines, the outcome, and the
scheduling trace. -/
structure RunOutput where
  stdout : List String
  result : RunResult
  trace : List Event
deriving DecidableEq, Repr

/-- Everything `main` does after the generation stage returned `Ok`:
construct the engine (line 20; `expect` panics on invalid parameters),
run the hashing stage, and either print each hash line and the completion
line or propagate the first error. -/
def mainAfterGen (mc tc pc ol : Nat) (saltFn : Nat → String)
    (reject : String → String → Option String)
    (digest : String → String → String)
    (genTr : List Event) (passwords : List PasswordWithScore) : RunOutput :=
  match create_argon2With mc tc pc ol with
  | .error _ =>
    { stdout := []
      result := .panicked "Failed to set Argon2 parameters"
      trace := genTr ++ [Event.engineConstruct] }
  | .ok a =>
    match (hashStage a saltFn reject digest passwords).1 with
    | .error e =>
      { stdout := []
        result := .err e
        trace := genTr ++ Event.engineConstruct ::
          (hashStage a saltFn reject digest passwords).2 }
    | .ok hashes =>
      { stdout := hashes.map (fun h => "Hash output: " ++ h) ++ [logLine]
        result := .ok
        trace := genTr ++ Event.engineConstruct ::
          (hashStage a saltFn reject digest passwords).2 }

/-- `main` (`src/main.rs` lines 19-46), generalized over the compiled-in
cost constants: generate 16 passwords of length 16, then construct the
engine, then hash.  A generation failure propagates via `?` before the
engine is ever constructed. -/
def mainRunWith (mc tc pc ol : Nat) (entropy : Nat → List Nat)
    (saltFn : Nat → String)
    (reject : String → String → Option String)
    (digest : String → String → String) : RunOutput :=
  match (generate_passwords_using_rayon entropy 16 16).1 with
  | .error e =>
    { stdout := []
      result := .err e
      trace := (generate_passwords_using_rayon entropy 16 16).2 }
  | .ok passwords =>
    mainAfterGen mc tc pc ol saltFn reject digest
      (generate_passwords_using_rayon entropy 16 16).2 passwords

/-- `main` with the compiled-in constants. -/
def mainRun (entropy : Nat → List Nat) (saltFn : Nat → String)
    (reject : String → String → Option String)
    (digest : String → String → String) : RunOutput :=
  mainRunWith MEMORY_COST TIME_COST PARALLELISM OUTPUT_LEN
    entropy saltFn reject digest

/-- The policy struct built inside `generate_passwords_using_rayon`. -/
def mainPolicy (length : Nat) : PasswordGenerator :=
  { length := length
    numbers := true
    lowercase_letters := true
    uppercase_letters := true
    symbols := true
    spaces := false
    exclude_similar_characters := true
    strict := true }

/-- The engine `create_argon2` builds from the compiled-in constants. -/
def argon2Main : Argon2 :=
  { algorithm := "argon2id", version := 19, params := ⟨50, 2, 2, 32⟩ }

/-- The first error in a list of unit results, in index order. -/
def firstErrorSpec {ε α : Type} : List (Except ε α) → Option ε
  | [] => none
  | .error e :: _ => some e
  | .ok _ :: rest => firstErrorSpec rest

theorem generate_passwords_using_rayon_eq (entropy : Nat → List Nat)
    (n len : Nat) :
    generate_passwords_using_rayon entropy n len =
      collectUnits Event.genUnit
        (fun i => generate_password (mainPolicy len) (entropy i))
        (List.range n) := rfl

theorem create_argon2_eq : create_argon2 = .ok argon2Main := rfl

theorem collectUnits_all_ok {ι α : Type} (mk : ι → Event)
    (f : ι → Except MyError α) (xs : List ι)
    (h : ∀ x ∈ xs, (f x).isOk) :
    ∃ as : List α,
      collectUnits mk f xs = (.ok as, xs.map mk) ∧ as.length = xs.length := by
  induction xs with
  | nil => exact ⟨[], rfl, rfl⟩
  | cons i rest ih =>
    have hi : (f i).isOk := h i (List.mem_cons_self i rest)
    obtain ⟨a, ha⟩ : ∃ a, f i = .ok a := by
      cases hfi : f i <;> simp_all [Except.isOk, Except.toBool]
    obtain ⟨as, has, hlen⟩ := ih (fun x hx => h x (List.mem_cons_of_mem i hx))
    refine ⟨a :: as, ?_, by simp [hlen]⟩
    simp [collectUnits, ha, has, Except.map]

theorem collectUnits_first_error {ι α : Type} (mk : ι → Event)
    (f : ι → Except MyError α) (xs : List ι) (e : MyError)
    (h : firstErrorSpec (xs.map f) = some e) :
    (collectUnits mk f xs).1 = .error e := by
  induction xs with
  | nil => simp [firstErrorSpec] at h
  | cons i rest ih =>
    cases hfi : f i with
    | error e' =>
      simp [List.map_cons, hfi, firstErrorSpec] at h
      simp [collectUnits, hfi, h]
    | ok a =>
      simp [List.map_cons, hfi, firstErrorSpec] at h
      have := ih h
      simp [collectUnits, hfi]
      cases hrest : (collectUnits mk f rest).1 with
      | error e'' => simp_all [Except.map]
      | ok as => simp_all [Except.map]

theorem collectUnits_no_error {ι α : Type} (mk : ι → Event)
    (f : ι → Except MyError α) (xs : List ι)
    (h : firstErrorSpec (xs.map f) = none) :
    (collectUnits mk f xs).1 = .ok ((xs.map f).filterMap Except.toOption) := by
  induction xs with
  | nil => simp [collectUnits, firstErrorSpec]
  | cons i rest ih =>
    cases hfi : f i with
    | error e' => simp [List.map_cons, hfi, firstErrorSpec] at h
    | ok a =>
      simp [List.map_cons, hfi, firstErrorSpec] at h
      have := ih h
      simp [collectUnits, hfi, this, Except.map, List.filterMap_cons,
        Except.toOption]

theorem collectUnits_ok_mem {ι α : Type} (mk : ι → Event)
    (f : ι → Except MyError α) (xs : List ι) (as : List α)
    (h : (collectUnits mk f xs).1 = .ok as) :
    ∀ a ∈ as, ∃ x ∈ xs, f x = .ok a := by
  induction xs generalizing as with
  | nil =>
    simp [collectUnits] at h
    subst h; intro a ha; simp at ha
  | cons i rest ih =>
    cases hfi : f i with
    | error e' => simp [collectUnits, hfi] at h
    | ok b =>
      simp only [collectUnits, hfi] at h
      cases hrest : (collectUnits mk f rest).1 with
      | error e'' => rw [hrest] at h; simp [Except.map] at h
      | ok bs =>
        rw [hrest] at h
        simp [Except.map] at h
        subst h
        intro a ha
        rcases List.mem_cons.mp ha with rfl | ha'
        · exact ⟨i, List.mem_cons_self i rest, hfi⟩
        · obtain ⟨x, hx, hfx⟩ := ih bs hrest a ha'
          exact ⟨x, List.mem_cons_of_mem i hx, hfx⟩

theorem collectUnits_ok_trace {ι α : Type} (mk : ι → Event)
    (f : ι → Except MyError α) (xs : List ι) (as : List α)
    (h : (collectUnits mk f xs).1 = .ok as) :
    (collectUnits mk f xs).2 = xs.map mk := by
  induction xs generalizing as with
  | nil => simp [collectUnits]
  | cons i rest ih =>
    cases hfi : f i with
    | error e' => simp [collectUnits, hfi] at h
    | ok b =>
      simp only [collectUnits, hfi] at h ⊢
      cases hrest : (collectUnits mk f rest).1 with
      | error e'' => rw [hrest] at h; simp [Except.map] at h
      | ok bs => simp [List.map_cons, ih bs hrest]

theorem collectUnits_trace_shape {ι α : Type} (mk : ι → Event)
    (f : ι → Except MyError α) (xs : List ι) :
    ∀ e ∈ (collectUnits mk f xs).2, ∃ x, e = mk x := by
  induction xs with
  | nil => simp [collectUnits]
  | cons i rest ih =>
    cases hfi : f i with
    | error e' =>
      simp [collectUnits, hfi]
    | ok b =>
      simp only [collectUnits, hfi]
      intro e he
      rcases List.mem_cons.mp he with rfl | he'
      · exact ⟨i, rfl⟩
      · exact ih e he'

theorem append_sep_inj {xs ys t1 t2 : List Char}
    (hx : '$' ∉ xs) (hy : '$' ∉ ys)
    (h : xs ++ '$' :: t1 = ys ++ '$' :: t2) : xs = ys := by
  induction xs generalizing ys with
  | nil =>
    cases ys with
    | nil => rfl
    | cons y ys' =>
      simp only [List.nil_append, List.cons_append, List.cons.injEq] at h
      exact absurd (by rw [h.1]; exact List.mem_cons_self y ys') hy
  | cons x xs' ih =>
    cases ys with
    | nil =>
      simp only [List.cons_append, List.nil_append, List.cons.injEq] at h
      exact absurd (by rw [← h.1]; exact List.mem_cons_self x xs') hx
    | cons y ys' =>
      simp only [List.cons_append, List.cons.injEq] at h
      have := ih (fun hm => hx (List.mem_cons_of_mem x hm))
        (fun hm => hy (List.mem_cons_of_mem y hm)) h.2
      rw [h.1, this]

/-- The generation-stage unit results of `main`, in index order. -/
def genUnitResults (entropy : Nat → List Nat) :
    List (Except MyError PasswordWithScore) :=
  (List.range 16).map (fun i => generate_password (mainPolicy 16) (entropy i))

/-- The hashing-stage unit results of `main` for a given generated list. -/
def hashUnitResults (a : Argon2) (saltFn : Nat → String)
    (reject : String → String → Option String)
    (digest : String → String → String)
    (pws : List PasswordWithScore) : List (Except MyError String) :=
  pws.enum.map (fun ip => (hashClosure a reject digest (saltFn ip.1) ip.2.1).2)

/-- The first failure a run of `main` encounters, in unit order: the first
generation-unit error if any, otherwise the first hashing-unit error over
the successfully generated passwords. -/
def runFirstFailure (entropy : Nat → List Nat) (saltFn : Nat → String)
    (reject : String → String → Option String)
    (digest : String → String → String) : Option MyError :=
  match firstErrorSpec (genUnitResults entropy) with
  | some e => some e
  | none =>
    firstErrorSpec (hashUnitResults argon2Main saltFn reject digest
      ((genUnitResults entropy).filterMap Except.toOption))

theorem generate_one_length (pg : PasswordGenerator) (entropy : List Nat)
    (pw : String) (h : generate_one pg entropy = .ok pw) :
    pw.length = pg.length := by
  simp only [generate_one] at h
  split at h
  · exact absurd h (by simp)
  · split at h
    · exact absurd h (by simp)
    · simp only [Except.ok.injEq] at h
      subst h
      simp [pickChars]

/-- C1: for every password processed by a hashing unit, after the unit's
hash computation returns — whether the result is an encoded hash record or
a `HashingError` — the plaintext password buffer contains only zero bytes.
The closure's final buffer is fully zeroized, and its returned result is
exactly the hash computation's result, on the success and failure paths
alike. -/
theorem hashClosure_wipes_plaintext (a : Argon2)
    (reject : String → String → Option String)
    (digest : String → String → String) (salt password : String) :
    allZeroBytes (hashClosure a reject digest salt password).1 = true ∧
    (hashClosure a reject digest salt password).2
      = hash_password a reject digest password salt := by
  refine ⟨?_, rfl⟩
  simp [hashClosure, zeroizeString, allZeroBytes, List.all_map, Function.comp]

/-- C7: when the hashing primitive rejects an input, `hash_password`
returns `HashingError` carrying exactly the salt used for that
computation, and the error value does not depend on the plaintext: two
different passwords rejected with the same primitive cause yield the
identical error value. -/
theorem hashingError_salt_no_plaintext (a : Argon2)
    (reject : String → String → Option String)
    (digest : String → String → String) (pw pw2 salt cause : String)
    (h1 : reject pw salt = some cause) (h2 : reject pw2 salt = some cause) :
    hash_password a reject digest pw salt
        = .error (MyError.HashingError cause salt) ∧
    hash_password a reject digest pw salt
        = hash_password a reject digest pw2 salt := by
  simp [hash_password, h1, h2]

/-- C8: the strength score is a pure, deterministic function of the
password string: any two generation units that produce the same password
string — even from different random draws — attach the same score, namely
the score of the analyzed string. -/
theorem score_deterministic (pg : PasswordGenerator) (e1 e2 : List Nat)
    (pw : String) (s1 s2 : Int)
    (h1 : generate_password pg e1 = .ok (pw, s1))
    (h2 : generate_password pg e2 = .ok (pw, s2)) :
    s1 = s2 ∧ s1 = scorePassword (analyze pw) := by
  unfold generate_password at h1 h2
  cases hg1 : generate_one pg e1 with
  | error e => rw [hg1] at h1; exact absurd h1 (by simp)
  | ok pw1 =>
    rw [hg1] at h1
    cases hg2 : generate_one pg e2 with
    | error e => rw [hg2] at h2; exact absurd h2 (by simp)
    | ok pw2 =>
      rw [hg2] at h2
      simp only [Except.ok.injEq, Prod.mk.injEq] at h1 h2
      obtain ⟨rfl, rfl⟩ := h1
      obtain ⟨rfl, rfl⟩ := h2
      exact ⟨rfl, rfl⟩

/-- C9: a successful `generate(policy)` returns a password string of
length exactly `policy.length`; in particular every password of the
compiled-in batch (`generate_passwords_using_rayon` with length 16) has
length 16. -/
theorem generate_password_length_eq_policy :
    (∀ (pg : PasswordGenerator) (entropy : List Nat) (pw : String) (s : Int),
        generate_password pg entropy = .ok (pw, s) → pw.length = pg.length) ∧
    (∀ (entropy : Nat → List Nat) (pws : List PasswordWithScore)
        (tr : List Event),
        generate_passwords_using_rayon entropy 16 16 = (.ok pws, tr) →
        ∀ p ∈ pws, p.1.length = 16) := by
  have hgen : ∀ (pg : PasswordGenerator) (entropy : List Nat) (pw : String)
      (s : Int), generate_password pg entropy = .ok (pw, s) →
      pw.length = pg.length := by
    intro pg entropy pw s h
    unfold generate_password at h
    cases hg : generate_one pg entropy with
    | error e => rw [hg] at h; exact absurd h (by simp)
    | ok pw1 =>
      rw [hg] at h
      simp only [Except.ok.injEq, Prod.mk.injEq] at h
      exact h.1 ▸ generate_one_length pg entropy _ hg
  refine ⟨hgen, ?_⟩
  intro entropy pws tr h p hp
  obtain ⟨pw, s⟩ := p
  have h1 : (collectUnits Event.genUnit
      (fun i => generate_password (mainPolicy 16) (entropy i))
      (List.range 16)).1 = .ok pws := by
    rw [← generate_passwords_using_rayon_eq, h]
  obtain ⟨i, _, hfi⟩ := collectUnits_ok_mem _ _ _ _ h1 _ hp
  exact hgen (mainPolicy 16) (entropy i) pw s hfi

/-- C5: for a fixed password, hashing with two different salts produces
two different encoded hash record strings — the self-describing encoding
embeds the salt, so distinct (well-formed, `$`-free) salts yield distinct
encodings regardless of the digests. -/
theorem hash_encoding_salt_injective (a : Argon2)
    (reject : String → String → Option String)
    (digest : String → String → String) (pw sA sB hA hB : String)
    (hsA : '$' ∉ sA.data) (hsB : '$' ∉ sB.data) (hne : sA ≠ sB)
    (hhA : hash_password a reject digest pw sA = .ok hA)
    (hhB : hash_password a reject digest pw sB = .ok hB) :
    hA ≠ hB := by
  unfold hash_password at hhA hhB
  cases hrA : reject pw sA with
  | some c => rw [hrA] at hhA; exact absurd hhA (by simp)
  | none =>
    rw [hrA] at hhA
    cases hrB : reject pw sB with
    | some c => rw [hrB] at hhB; exact absurd hhB (by simp)
    | none =>
      rw [hrB] at hhB
      simp only [Except.ok.injEq] at hhA hhB
      subst hhA; subst hhB
      intro heq
      apply hne
      have hd := congrArg String.data heq
      simp only [phcString, String.data_append, List.append_assoc] at hd
      repeat rw [List.append_cancel_left_eq] at hd
      rw [List.singleton_append, List.singleton_append] at hd
      have hdata := append_sep_inj hsA hsB hd
      cases sA; cases sB
      exact congrArg String.mk hdata

theorem hashStage_enumFrom_fst (a : Argon2) (saltFn : Nat → String)
    (reject : String → String → Option String)
    (digest : String → String → String) :
    ∀ (l1 : List PasswordWithScore) (k : Nat) (l2 : List PasswordWithScore),
    l1.map Prod.fst = l2.map Prod.fst →
    collectUnits (fun ip => Event.hashUnit ip.1)
        (fun ip => (hashClosure a reject digest (saltFn ip.1) ip.2.1).2)
        (l1.enumFrom k)
      = collectUnits (fun ip => Event.hashUnit ip.1)
        (fun ip => (hashClosure a reject digest (saltFn ip.1) ip.2.1).2)
        (l2.enumFrom k) := by
  intro l1
  induction l1 with
  | nil =>
    intro k l2 h
    cases l2 with
    | nil => rfl
    | cons p2 rest2 => simp at h
  | cons p1 rest1 ih =>
    intro k l2 h
    cases l2 with
    | nil => simp at h
    | cons p2 rest2 =>
      simp only [List.map_cons, List.cons.injEq] at h
      simp only [List.enumFrom, collectUnits]
      rw [h.1, ih (k + 1) rest2 h.2]

/-- C10: the strength score attached to each generated password has no
effect on the run's output — the whole post-generation phase of `main`
(engine construction, hashing, printing, outcome) is identical for any two
generated batches that agree on the password strings, whatever their
scores; the score is discarded by the hashing closure's pattern. -/
theorem score_has_no_effect (mc tc pc ol : Nat) (saltFn : Nat → String)
    (reject : String → String → Option String)
    (digest : String → String → String) (genTr : List Event)
    (l1 l2 : List PasswordWithScore)
    (h : l1.map Prod.fst = l2.map Prod.fst) :
    mainAfterGen mc tc pc ol saltFn reject digest genTr l1
      = mainAfterGen mc tc pc ol saltFn reject digest genTr l2 := by
  unfold mainAfterGen
  cases create_argon2With mc tc pc ol with
  | error msg => rfl
  | ok a =>
    have hs : hashStage a saltFn reject digest l1
        = hashStage a saltFn reject digest l2 := by
      unfold hashStage
      rw [show (l1.enum = l1.enumFrom 0) from rfl,
        show (l2.enum = l2.enumFrom 0) from rfl]
      exact hashStage_enumFrom_fst a saltFn reject digest l1 0 l2 h
    simp only [hs]

theorem genUnitResults_eq_map (entropy : Nat → List Nat) :
    genUnitResults entropy =
      (List.range 16).map
        (fun i => generate_password (mainPolicy 16) (entropy i)) := rfl

theorem hashUnitResults_eq_map (a : Argon2) (saltFn : Nat → String)
    (reject : String → String → Option String)
    (digest : String → String → String) (pws : List PasswordWithScore) :
    hashUnitResults a saltFn reject digest pws =
      pws.enum.map
        (fun ip => (hashClosure a reject digest (saltFn ip.1) ip.2.1).2) := rfl


theorem mainRunWith_genError (mc tc pc ol : Nat) (entropy : Nat → List Nat)
    (saltFn : Nat → String) (reject : String → String → Option String)
    (digest : String → String → String) (e : MyError)
    (h : (generate_passwords_using_rayon entropy 16 16).1 = .error e) :
    mainRunWith mc tc pc ol entropy saltFn reject digest =
      { stdout := []
        result := .err e
        trace := (generate_passwords_using_rayon entropy 16 16).2 } := by
  unfold mainRunWith
  rw [h]

theorem mainRunWith_genOk (mc tc pc ol : Nat) (entropy : Nat → List Nat)
    (saltFn : Nat → String) (reject : String → String → Option String)
    (digest : String → String → String) (pws : List PasswordWithScore)
    (h : (generate_passwords_using_rayon entropy 16 16).1 = .ok pws) :
    mainRunWith mc tc pc ol entropy saltFn reject digest =
      mainAfterGen mc tc pc ol saltFn reject digest
        (generate_passwords_using_rayon entropy 16 16).2 pws := by
  unfold mainRunWith
  rw [h]

theorem mainAfterGen_hashError (saltFn : Nat → String)
    (reject : String → String → Option String)
    (digest : String → String → String) (genTr : List Event)
    (pws : List PasswordWithScore) (e : MyError)
    (h : (hashStage argon2Main saltFn reject digest pws).1 = .error e) :
    mainAfterGen MEMORY_COST TIME_COST PARALLELISM OUTPUT_LEN
        saltFn reject digest genTr pws =
      { stdout := []
        result := .err e
        trace := genTr ++ Event.engineConstruct ::
          (hashStage argon2Main saltFn reject digest pws).2 } := by
  unfold mainAfterGen
  rw [show create_argon2With MEMORY_COST TIME_COST PARALLELISM OUTPUT_LEN
    = Except.ok argon2Main from rfl]
  simp only [h]

theorem mainAfterGen_hashOk (saltFn : Nat → String)
    (reject : String → String → Option String)
    (digest : String → String → String) (genTr : List Event)
    (pws : List PasswordWithScore) (hashes : List String)
    (h : (hashStage argon2Main saltFn reject digest pws).1 = .ok hashes) :
    mainAfterGen MEMORY_COST TIME_COST PARALLELISM OUTPUT_LEN
        saltFn reject digest genTr pws =
      { stdout := hashes.map (fun hh => "Hash output: " ++ hh) ++ [logLine]
        result := .ok
        trace := genTr ++ Event.engineConstruct ::
          (hashStage argon2Main saltFn reject digest pws).2 } := by
  unfold mainAfterGen
  rw [show create_argon2With MEMORY_COST TIME_COST PARALLELISM OUTPUT_LEN
    = Except.ok argon2Main from rfl]
  simp only [h]

/-- C2: if any generation or hashing unit fails, the run's result is the
first encountered failure (in unit order), no `Hash output:` line is
printed for any unit, and no completion marker is printed — the stdout of
a failed run is empty, so no partial set of hashes reaches the caller. -/
theorem mainRun_fail_fast (entropy : Nat → List Nat) (saltFn : Nat → String)
    (reject : String → String → Option String)
    (digest : String → String → String) (e : MyError)
    (h : runFirstFailure entropy saltFn reject digest = some e) :
    (mainRun entropy saltFn reject digest).result = RunResult.err e ∧
    (mainRun entropy saltFn reject digest).stdout = [] := by
  unfold runFirstFailure at h
  cases hfe : firstErrorSpec (genUnitResults entropy) with
  | some e' =>
    rw [hfe] at h
    simp only [Option.some.injEq] at h
    subst h
    have herr : (generate_passwords_using_rayon entropy 16 16).1
        = Except.error e' := by
      rw [generate_passwords_using_rayon_eq]
      exact collectUnits_first_error Event.genUnit
        (fun i => generate_password (mainPolicy 16) (entropy i))
        (List.range 16) e' (by rw [← genUnitResults_eq_map]; exact hfe)
    unfold mainRun
    rw [mainRunWith_genError MEMORY_COST TIME_COST PARALLELISM OUTPUT_LEN
      entropy saltFn reject digest e' herr]
    exact ⟨rfl, rfl⟩
  | none =>
    rw [hfe] at h
    simp only at h
    have hok : (generate_passwords_using_rayon entropy 16 16).1
        = Except.ok ((genUnitResults entropy).filterMap Except.toOption) := by
      rw [generate_passwords_using_rayon_eq]
      exact collectUnits_no_error Event.genUnit
        (fun i => generate_password (mainPolicy 16) (entropy i))
        (List.range 16) (by rw [← genUnitResults_eq_map]; exact hfe)
    have hherr : (hashStage argon2Main saltFn reject digest
        ((genUnitResults entropy).filterMap Except.toOption)).1
        = Except.error e := by
      unfold hashStage
      exact collectUnits_first_error (fun ip => Event.hashUnit ip.1)
        (fun ip =>
          (hashClosure argon2Main reject digest (saltFn ip.1) ip.2.1).2)
        ((genUnitResults entropy).filterMap Except.toOption).enum e
        (by rw [← hashUnitResults_eq_map]; exact h)
    unfold mainRun
    rw [mainRunWith_genOk MEMORY_COST TIME_COST PARALLELISM OUTPUT_LEN
      entropy saltFn reject digest _ hok,
      mainAfterGen_hashError saltFn reject digest _ _ e hherr]
    exact ⟨rfl, rfl⟩

/-- C4: with the compiled-in batch size 16, a run in which every
generation unit succeeds and the hashing primitive accepts every input
yields exactly 16 hash records: stdout is exactly one `Hash output:` line
per record followed by the single completion line, and the run returns
success. -/
theorem mainRun_success (entropy : Nat → List Nat) (saltFn : Nat → String)
    (reject : String → String → Option String)
    (digest : String → String → String)
    (hgen : ∀ i ∈ List.range 16,
      ((fun i => generate_password (mainPolicy 16) (entropy i)) i).isOk)
    (hrej : ∀ pw s, reject pw s = none) :
    ∃ hashes : List String, hashes.length = 16 ∧
      (mainRun entropy saltFn reject digest).stdout
        = hashes.map (fun h => "Hash output: " ++ h) ++ [logLine] ∧
      (mainRun entropy saltFn reject digest).result = RunResult.ok := by
  obtain ⟨pws, hcoll, hlen⟩ := collectUnits_all_ok Event.genUnit
    (fun i => generate_password (mainPolicy 16) (entropy i))
    (List.range 16) hgen
  have hok : (generate_passwords_using_rayon entropy 16 16).1 = .ok pws := by
    rw [generate_passwords_using_rayon_eq, hcoll]
  have hH : ∀ ip ∈ pws.enum,
      ((fun ip =>
        (hashClosure argon2Main reject digest (saltFn ip.1) ip.2.1).2) ip).isOk := by
    intro ip _
    simp [hashClosure, hash_password, hrej, Except.isOk, Except.toBool]
  obtain ⟨hs, hhcoll, hhlen⟩ := collectUnits_all_ok
    (fun ip => Event.hashUnit ip.1)
    (fun ip => (hashClosure argon2Main reject digest (saltFn ip.1) ip.2.1).2)
    pws.enum hH
  have hhok : (hashStage argon2Main saltFn reject digest pws).1 = .ok hs := by
    unfold hashStage; rw [hhcoll]
  have hmain : mainRun entropy saltFn reject digest =
      { stdout := hs.map (fun hh => "Hash output: " ++ hh) ++ [logLine]
        result := .ok
        trace := (generate_passwords_using_rayon entropy 16 16).2 ++
          Event.engineConstruct ::
            (hashStage argon2Main saltFn reject digest pws).2 } := by
    unfold mainRun
    rw [mainRunWith_genOk MEMORY_COST TIME_COST PARALLELISM OUTPUT_LEN
        entropy saltFn reject digest pws hok,
      mainAfterGen_hashOk saltFn reject digest _ pws hs hhok]
  refine ⟨hs, ?_, by rw [hmain], by rw [hmain]⟩
  rw [hhlen, List.enum_length, hlen, List.length_range]

theorem mainAfterGen_panic (mc tc pc ol : Nat) (saltFn : Nat → String)
    (reject : String → String → Option String)
    (digest : String → String → String) (genTr : List Event)
    (pws : List PasswordWithScore) (msg : String)
    (hbad : create_argon2With mc tc pc ol = .error msg) :
    mainAfterGen mc tc pc ol saltFn reject digest genTr pws =
      { stdout := []
        result := .panicked "Failed to set Argon2 parameters"
        trace := genTr ++ [Event.engineConstruct] } := by
  unfold mainAfterGen
  rw [hbad]

theorem mainAfterGen_constructOk_trace (mc tc pc ol : Nat)
    (saltFn : Nat → String) (reject : String → String → Option String)
    (digest : String → String → String) (genTr : List Event)
    (pws : List PasswordWithScore) (a : Argon2)
    (hc : create_argon2With mc tc pc ol = .ok a) :
    (mainAfterGen mc tc pc ol saltFn reject digest genTr pws).trace
      = genTr ++ Event.engineConstruct ::
          (hashStage a saltFn reject digest pws).2 := by
  unfold mainAfterGen
  rw [hc]
  rcases hh : (hashStage a saltFn reject digest pws).1 with e | hashes <;>
    simp only [hh]

theorem mainRunWith_trace_split (mc tc pc ol : Nat)
    (entropy : Nat → List Nat) (saltFn : Nat → String)
    (reject : String → String → Option String)
    (digest : String → String → String) :
    ∃ genTr rest : List Event,
      (mainRunWith mc tc pc ol entropy saltFn reject digest).trace
        = genTr ++ rest ∧
      (∀ e ∈ genTr, ∃ x, e = Event.genUnit x) ∧
      (∀ x, Event.genUnit x ∉ rest) := by
  have hgshape : ∀ e ∈ (generate_passwords_using_rayon entropy 16 16).2,
      ∃ x, e = Event.genUnit x := by
    rw [generate_passwords_using_rayon_eq]
    exact collectUnits_trace_shape Event.genUnit _ (List.range 16)
  cases hg : (generate_passwords_using_rayon entropy 16 16).1 with
  | error e =>
    refine ⟨(generate_passwords_using_rayon entropy 16 16).2, [], ?_,
      hgshape, by simp⟩
    unfold mainRun at *
    rw [mainRunWith_genError mc tc pc ol entropy saltFn reject digest e hg]
    simp
  | ok pws =>
    rw [show (mainRunWith mc tc pc ol entropy saltFn reject digest).trace
      = (mainAfterGen mc tc pc ol saltFn reject digest
          (generate_passwords_using_rayon entropy 16 16).2 pws).trace from by
        rw [mainRunWith_genOk mc tc pc ol entropy saltFn reject digest pws hg]]
    cases hc : create_argon2With mc tc pc ol with
    | error msg =>
      refine ⟨(generate_passwords_using_rayon entropy 16 16).2,
        [Event.engineConstruct], ?_, hgshape, by simp⟩
      rw [mainAfterGen_panic mc tc pc ol saltFn reject digest _ pws msg hc]
    | ok a =>
      refine ⟨(generate_passwords_using_rayon entropy 16 16).2,
        Event.engineConstruct :: (hashStage a saltFn reject digest pws).2,
        ?_, hgshape, ?_⟩
      · exact mainAfterGen_constructOk_trace mc tc pc ol saltFn reject digest
          _ pws a hc
      · intro x hx
        rcases List.mem_cons.mp hx with hx1 | hx2
        · exact absurd hx1 (by simp)
        · have := collectUnits_trace_shape (fun ip => Event.hashUnit ip.1)
            (fun ip =>
              (hashClosure a reject digest (saltFn ip.1) ip.2.1).2)
            pws.enum (Event.genUnit x) (by exact hx2)
          obtain ⟨y, hy⟩ := this
          exact absurd hy (by simp)

/-- C6: the two batch stages run sequentially relative to each other —
in every run's scheduling trace, every generation-unit event occurs
strictly before every hashing-unit event, for any cost parameters and any
behaviour of the generator and the primitive. -/
theorem generation_before_hashing (mc tc pc ol : Nat)
    (entropy : Nat → List Nat) (saltFn : Nat → String)
    (reject : String → String → Option String)
    (digest : String → String → String) (i j a b : Nat)
    (hi : (mainRunWith mc tc pc ol entropy saltFn reject digest).trace[i]?
      = some (Event.genUnit a))
    (hj : (mainRunWith mc tc pc ol entropy saltFn reject digest).trace[j]?
      = some (Event.hashUnit b)) :
    i < j := by
  obtain ⟨genTr, rest, htr, hgenShape, hnoGen⟩ :=
    mainRunWith_trace_split mc tc pc ol entropy saltFn reject digest
  rw [htr] at hi hj
  by_cases hjl : j < genTr.length
  · exfalso
    rw [List.getElem?_append, if_pos hjl] at hj
    obtain ⟨x, hx⟩ := hgenShape _ (List.getElem?_mem hj)
    exact absurd hx (by simp)
  · push_neg at hjl
    by_cases hil : i < genTr.length
    · exact lt_of_lt_of_le hil hjl
    · exfalso
      push_neg at hil
      rw [List.getElem?_append, if_neg (by omega)] at hi
      exact hnoGen a (List.getElem?_mem hi)

/-- C3 (amended): when the cost parameters are outside the primitive's
accepted range, engine construction fails — but as the `expect` panic
`Failed to set Argon2 parameters`, not as a `ParamError` value — and the
panic terminates the run with empty stdout before any hashing work; the
generation stage, however, has already run to completion by then, because
`main` generates the batch before constructing the engine. -/
theorem create_argon2_invalid_panics (mc tc pc ol : Nat)
    (entropy : Nat → List Nat) (saltFn : Nat → String)
    (reject : String → String → Option String)
    (digest : String → String → String)
    (pws : List PasswordWithScore) (msg : String)
    (hgen : (generate_passwords_using_rayon entropy 16 16).1 = .ok pws)
    (hbad : create_argon2With mc tc pc ol = .error msg) :
    (mainRunWith mc tc pc ol entropy saltFn reject digest).result
        = RunResult.panicked "Failed to set Argon2 parameters" ∧
    (mainRunWith mc tc pc ol entropy saltFn reject digest).stdout = [] ∧
    (mainRunWith mc tc pc ol entropy saltFn reject digest).trace
        = (List.range 16).map Event.genUnit ++ [Event.engineConstruct] := by
  have htr : (generate_passwords_using_rayon entropy 16 16).2
      = (List.range 16).map Event.genUnit := by
    rw [generate_passwords_using_rayon_eq]
    exact collectUnits_ok_trace Event.genUnit
      (fun i => generate_password (mainPolicy 16) (entropy i))
      (List.range 16) pws
      (by rw [← generate_passwords_using_rayon_eq]; exact hgen)
  rw [mainRunWith_genOk mc tc pc ol entropy saltFn reject digest pws hgen,
    mainAfterGen_panic mc tc pc ol saltFn reject digest _ pws msg hbad]
  exact ⟨rfl, rfl, by rw [htr]⟩

/-- Concrete entropy stream: every generation unit draws charset indices
hitting a digit, a lowercase letter, an uppercase letter and a symbol, so
the strict policy is satisfied. -/
def entropyW : Nat → List Nat := fun _ => [0, 8, 33, 57]

/-- Concrete OS salt source: unit `i` draws the salt `salt<i>`. -/
def saltW : Nat → String := fun i => "salt" ++ toString i

/-- A primitive that accepts every input. -/
def rejectAccept : String → String → Option String := fun _ _ => none

/-- A primitive that rejects every input with cause `bad`. -/
def rejectAll : String → String → Option String := fun _ _ => some "bad"

/-- A fixed digest function for concrete runs. -/
def digestW : String → String → String := fun _ _ => "digestval"

/-- C3 counterexample: with memory cost 4 — below the primitive's minimum
of 8 — the run does not fail with a `ParamError` value but with the
`expect` panic, and its trace shows all 16 generation units of batch work
executed before the engine construction, refuting "no batch work is
attempted before it". -/
theorem create_argon2_after_batch_counterexample :
    create_argon2With 4 TIME_COST PARALLELISM OUTPUT_LEN
        = Except.error "memory cost too small" ∧
    (mainRunWith 4 TIME_COST PARALLELISM OUTPUT_LEN entropyW saltW
        rejectAccept digestW).result
      = RunResult.panicked "Failed to set Argon2 parameters" ∧
    (mainRunWith 4 TIME_COST PARALLELISM OUTPUT_LEN entropyW saltW
        rejectAccept digestW).trace
      = (List.range 16).map Event.genUnit ++ [Event.engineConstruct] := by
  decide

theorem create_argon2_invalid_panics_witness :
    (mainRunWith 4 TIME_COST PARALLELISM OUTPUT_LEN entropyW saltW
        rejectAll digestW).result
      = RunResult.panicked "Failed to set Argon2 parameters" ∧
    (mainRunWith 4 TIME_COST PARALLELISM OUTPUT_LEN entropyW saltW
        rejectAll digestW).stdout = [] ∧
    (mainRunWith 4 TIME_COST PARALLELISM OUTPUT_LEN entropyW saltW
        rejectAll digestW).trace
      = (List.range 16).map Event.genUnit ++ [Event.engineConstruct] :=
  create_argon2_invalid_panics 4 TIME_COST PARALLELISM OUTPUT_LEN entropyW
    saltW rejectAll digestW
    (List.replicate 16 ("2aA!222222222222", (104 : Int)))
    "memory cost too small" (by decide) (by decide)

theorem mainRun_fail_fast_witness :
    runFirstFailure entropyW saltW rejectAll digestW
        = some (MyError.HashingError "bad" "salt0") ∧
    (mainRun entropyW saltW rejectAll digestW).result
        = RunResult.err (MyError.HashingError "bad" "salt0") ∧
    (mainRun entropyW saltW rejectAll digestW).stdout = [] :=
  ⟨by decide,
    mainRun_fail_fast entropyW saltW rejectAll digestW
      (MyError.HashingError "bad" "salt0") (by decide)⟩

theorem mainRun_success_witness :
    ∃ hashes : List String, hashes.length = 16 ∧
      (mainRun entropyW saltW rejectAccept digestW).stdout
        = hashes.map (fun h => "Hash output: " ++ h) ++ [logLine] ∧
      (mainRun entropyW saltW rejectAccept digestW).result = RunResult.ok :=
  mainRun_success entropyW saltW rejectAccept digestW (by decide)
    (fun _ _ => rfl)

theorem hash_encoding_salt_injective_witness :
    phcString argon2Main "aaab" "dg" ≠ phcString argon2Main "aaac" "dg" :=
  hash_encoding_salt_injective argon2Main rejectAccept (fun _ _ => "dg")
    "pw" "aaab" "aaac" _ _ (by decide) (by decide) (by decide) rfl rfl

theorem generation_before_hashing_witness :
    (mainRunWith MEMORY_COST TIME_COST PARALLELISM OUTPUT_LEN
        entropyW saltW rejectAccept digestW).trace[0]?
      = some (Event.genUnit 0) ∧
    (mainRunWith MEMORY_COST TIME_COST PARALLELISM OUTPUT_LEN
        entropyW saltW rejectAccept digestW).trace[17]?
      = some (Event.hashUnit 0) ∧
    (0 : Nat) < 17 :=
  ⟨by decide, by decide,
    generation_before_hashing MEMORY_COST TIME_COST PARALLELISM OUTPUT_LEN
      entropyW saltW rejectAccept digestW 0 17 0 0 (by decide) (by decide)⟩

theorem hashingError_salt_no_plaintext_witness :
    hash_password argon2Main rejectAll digestW "pw1" "salt0"
        = .error (MyError.HashingError "bad" "salt0") ∧
    hash_password argon2Main rejectAll digestW "pw1" "salt0"
        = hash_password argon2Main rejectAll digestW "pw2" "salt0" :=
  hashingError_salt_no_plaintext argon2Main rejectAll digestW "pw1" "pw2"
    "salt0" "bad" rfl rfl

theorem score_deterministic_witness :
    (104 : Int) = 104 ∧
    (104 : Int) = scorePassword (analyze "2aA!222222222222") :=
  score_deterministic (mainPolicy 16) [0, 8, 33, 57] [0, 8, 33, 57, 0]
    "2aA!222222222222" 104 104 (by decide) (by decide)

theorem generate_password_length_eq_policy_witness :
    ("2aA!222222222222" : String).length = (mainPolicy 16).length :=
  generate_password_length_eq_policy.1 (mainPolicy 16) [0, 8, 33, 57]
    "2aA!222222222222" 104 (by decide)

theorem score_has_no_effect_witness :
    mainAfterGen MEMORY_COST TIME_COST PARALLELISM OUTPUT_LEN saltW
        rejectAccept digestW [] [("pw", 1)]
      = mainAfterGen MEMORY_COST TIME_COST PARALLELISM OUTPUT_LEN saltW
        rejectAccept digestW [] [("pw", 2)] :=
  score_has_no_effect MEMORY_COST TIME_COST PARALLELISM OUTPUT_LEN saltW
    rejectAccept digestW [] [("pw", 1)] [("pw", 2)] (by decide)
